import Mathlib

/- Verification development for the gmail XMPP mail-notification client
(packages `xmpp` and `gmail`).  The definitions below are a shallow
embedding of the Go source: Go strings are modelled as lists of byte
values (`Bytes := List Nat`, each entry < 256) where raw bytes matter
(MD5, xmlEscape), and as Lean `String`s where only ASCII text is
involved (stanza attributes, error messages).  Loops over Go byte
strings become structural recursion; bounded machine arithmetic is
`Nat` arithmetic reduced modulo 2^32 / 2^64 where the Go code relies on
wrapping. -/

/-! ## Byte strings -/

abbrev Bytes := List Nat

/-- The bytes of an ASCII string literal (used only on ASCII literals,
where Go's UTF-8 bytes and the code points coincide). -/
def ascii (s : String) : Bytes := s.toList.map Char.toNat

/-- The byte of the colon character, pervasive in the DIGEST-MD5
computation. -/
def colonB : Bytes := [58]

/-! ## MD5 (crypto/md5), executable

The Go code calls `md5.New()/Write/Sum`.  The full MD5 algorithm is
embedded here over `Bytes`, with 32-bit arithmetic as `Nat` modulo
2^32.  The chunk loop is written with an explicit fuel argument (the
message length bounds the number of 64-byte chunks) so that every
definition is structurally recursive and kernel-evaluable. -/

def w32 (n : Nat) : Nat := n % 4294967296

def w64 (n : Nat) : Nat := n % 18446744073709551616

/-- Left-rotation of a 32-bit word. -/
def rotl32 (x s : Nat) : Nat := w32 (x <<< s) ||| (x >>> (32 - s))

/-- The 64 MD5 sine-derived constants. -/
def md5K : List Nat :=
  [0xd76aa478, 0xe8c7b756, 0x242070db, 0xc1bdceee,
   0xf57c0faf, 0x4787c62a, 0xa8304613, 0xfd469501,
   0x698098d8, 0x8b44f7af, 0xffff5bb1, 0x895cd7be,
   0x6b901122, 0xfd987193, 0xa679438e, 0x49b40821,
   0xf61e2562, 0xc040b340, 0x265e5a51, 0xe9b6c7aa,
   0xd62f105d, 0x02441453, 0xd8a1e681, 0xe7d3fbc8,
   0x21e1cde6, 0xc33707d6, 0xf4d50d87, 0x455a14ed,
   0xa9e3e905, 0xfcefa3f8, 0x676f02d9, 0x8d2a4c8a,
   0xfffa3942, 0x8771f681, 0x6d9d6122, 0xfde5380c,
   0xa4beea44, 0x4bdecfa9, 0xf6bb4b60, 0xbebfbc70,
   0x289b7ec6, 0xeaa127fa, 0xd4ef3085, 0x04881d05,
   0xd9d4d039, 0xe6db99e5, 0x1fa27cf8, 0xc4ac5665,
   0xf4292244, 0x432aff97, 0xab9423a7, 0xfc93a039,
   0x655b59c3, 0x8f0ccc92, 0xffeff47d, 0x85845dd1,
   0x6fa87e4f, 0xfe2ce6e0, 0xa3014314, 0x4e0811a1,
   0xf7537e82, 0xbd3af235, 0x2ad7d2bb, 0xeb86d391]

/-- The 64 MD5 per-round shift amounts. -/
def md5S : List Nat :=
  [7, 12, 17, 22, 7, 12, 17, 22, 7, 12, 17, 22, 7, 12, 17, 22,
   5, 9, 14, 20, 5, 9, 14, 20, 5, 9, 14, 20, 5, 9, 14, 20,
   4, 11, 16, 23, 4, 11, 16, 23, 4, 11, 16, 23, 4, 11, 16, 23,
   6, 10, 15, 21, 6, 10, 15, 21, 6, 10, 15, 21, 6, 10, 15, 21]

structure md5State where
  a : Nat
  b : Nat
  c : Nat
  d : Nat
deriving DecidableEq

/-- A 64-byte chunk as 16 little-endian 32-bit words. -/
def leWords : Bytes → List Nat
  | b0 :: b1 :: b2 :: b3 :: rest =>
      (b0 + 256 * b1 + 65536 * b2 + 16777216 * b3) :: leWords rest
  | _ => []

/-- One of the 64 MD5 rounds over a chunk `M`. -/
def md5Round (M : List Nat) (st : md5State) (i : Nat) : md5State :=
  let fg : Nat × Nat :=
    if i < 16 then
      ((st.b &&& st.c) ||| ((st.b ^^^ 0xffffffff) &&& st.d), i)
    else if i < 32 then
      ((st.d &&& st.b) ||| ((st.d ^^^ 0xffffffff) &&& st.c), (5 * i + 1) % 16)
    else if i < 48 then
      (st.b ^^^ st.c ^^^ st.d, (3 * i + 5) % 16)
    else
      (st.c ^^^ (st.b ||| (st.d ^^^ 0xffffffff)), (7 * i) % 16)
  let f := w32 (fg.1 + st.a + md5K.getD i 0 + M.getD fg.2 0)
  ⟨st.d, w32 (st.b + rotl32 f (md5S.getD i 0)), st.b, st.c⟩

/-- Process one 64-byte chunk. -/
def md5Chunk (st : md5State) (chunk : Bytes) : md5State :=
  let M := leWords chunk
  let r := (List.range 64).foldl (md5Round M) st
  ⟨w32 (st.a + r.a), w32 (st.b + r.b), w32 (st.c + r.c), w32 (st.d + r.d)⟩

/-- Process all 64-byte chunks; `fuel` bounds the number of chunks (the
padded message length is always a sufficient bound). -/
def md5ChunksAux : Nat → md5State → Bytes → md5State
  | 0, st, _ => st
  | _ + 1, st, [] => st
  | fuel + 1, st, c :: rest =>
      md5ChunksAux fuel (md5Chunk st (List.take 64 (c :: rest)))
        (List.drop 64 (c :: rest))

def md5Chunks (st : md5State) (msg : Bytes) : md5State :=
  md5ChunksAux msg.length st msg

/-- A Nat as 4 little-endian bytes. -/
def leBytes4 (n : Nat) : Bytes :=
  [n % 256, n / 256 % 256, n / 65536 % 256, n / 16777216 % 256]

/-- A Nat as 8 little-endian bytes. -/
def leBytes8 (n : Nat) : Bytes :=
  leBytes4 n ++ leBytes4 (n / 4294967296)

/-- MD5 padding: a 0x80 byte, zeros to 56 mod 64, then the 64-bit
little-endian bit length. -/
def md5Pad (msg : Bytes) : Bytes :=
  let len := msg.length
  let zeros := (119 - len % 64) % 64
  msg ++ [128] ++ List.replicate zeros 0 ++ leBytes8 (w64 (len * 8))

/-- The 16-byte MD5 digest of a byte string. -/
def md5 (msg : Bytes) : Bytes :=
  let st := md5Chunks ⟨0x67452301, 0xefcdab89, 0x98badcfe, 0x10325476⟩ (md5Pad msg)
  leBytes4 st.a ++ leBytes4 st.b ++ leBytes4 st.c ++ leBytes4 st.d

/-! ## Lowercase hex rendering (fmt "%x" on a byte slice) -/

/-- A hex digit value 0..15 as its lowercase ASCII byte. -/
def hexDigitByte (d : Nat) : Nat := if d < 10 then 48 + d else 87 + d

/-- Go's `fmt.Sprintf("%x", bytes)`: two lowercase hex digits per byte. -/
def hexLower : Bytes → Bytes
  | [] => []
  | b :: rest => hexDigitByte (b / 16) :: hexDigitByte (b % 16) :: hexLower rest

/-! ## saslDigestResponse (xmpp.go lines 333-354)

Go strings are byte strings; `string(h(...))` splices the raw 16 MD5
bytes into the concatenation, which the `Bytes` model renders directly.
The local closures `h`, `hex` and `kd` of the Go function are kept. -/

def saslDigestResponse (username realm passwd nonce cnonceStr
    authenticate digestUri nonceCountStr : Bytes) : Bytes :=
  let h := fun (text : Bytes) => md5 text
  let hex := fun (bytes : Bytes) => hexLower bytes
  let kd := fun (secret data : Bytes) => h (secret ++ colonB ++ data)
  let a1 := h (username ++ colonB ++ realm ++ colonB ++ passwd) ++ colonB ++
    nonce ++ colonB ++ cnonceStr
  let a2 := authenticate ++ colonB ++ digestUri
  hex (kd (hex (h a1)) (nonce ++ colonB ++ nonceCountStr ++ colonB ++
    cnonceStr ++ ascii ":auth:" ++ hex (h a2)))

/-- The RFC 2831 reference computation exactly as the spec words it:
`A1 = MD5(username ":" realm ":" password) ":" nonce ":" cnonce`,
`A2 = "AUTHENTICATE:" + "xmpp/" + domain`, and the response is
`hex(MD5(hex(MD5(A1)) ":" nonce ":" "00000001" ":" cnonce ":auth:"
hex(MD5(A2))))`, all hex encodings lowercase. -/
def rfc2831Response (username realm password nonce cn domain : Bytes) : Bytes :=
  let A1 := md5 (username ++ colonB ++ realm ++ colonB ++ password) ++ colonB ++
    nonce ++ colonB ++ cn
  let A2 := ascii "AUTHENTICATE:" ++ ascii "xmpp/" ++ domain
  hexLower (md5 (hexLower (md5 A1) ++ colonB ++ nonce ++ colonB ++
    ascii "00000001" ++ colonB ++ cn ++ ascii ":auth:" ++ hexLower (md5 A2)))

/-! ## cnonce (xmpp.go lines 356-364)

`rand.Int(rand.Reader, 1<<64)` draws a uniform value below 2^64, or
fails; the randomness outcome is the explicit argument of the model:
`none` is the error branch (the Go function then returns the empty
string), `some n` is a drawn value `n < 2^64`, rendered by
`fmt.Sprintf("%016x", n)`. -/

/-- The lowercase hex digits of `n`, least significant first; the first
argument is structural fuel (`n` itself is always enough). -/
def natHexRevAux : Nat → Nat → List Nat
  | 0, _ => []
  | _ + 1, 0 => []
  | fuel + 1, n + 1 =>
      hexDigitByte ((n + 1) % 16) :: natHexRevAux fuel ((n + 1) / 16)

/-- Go's `%x` rendering of a Nat (lowercase, no padding). -/
def goHexNat (n : Nat) : Bytes :=
  if n = 0 then [48] else (natHexRevAux n n).reverse

/-- Go's `%016x`: the hex rendering zero-padded on the left to width 16. -/
def sprintf016x (n : Nat) : Bytes :=
  List.replicate (16 - (goHexNat n).length) 48 ++ goHexNat n

def cnonce : Option Nat → Bytes
  | none => []
  | some n => sprintf016x n

/-- A byte is a lowercase hex digit (0-9 or a-f). -/
def isLowerHexDigit (b : Nat) : Bool :=
  (48 ≤ b && b ≤ 57) || (97 ≤ b && b ≤ 102)

/-! ## xmlEscape (xmpp.go lines 587-606)

The Go function walks the string byte by byte, replacing the five bytes
listed in the `xmlSpecial` map and copying every other byte. -/

def xmlSpecial (c : Nat) : Option Bytes :=
  if c = 60 then some (ascii "&lt;")
  else if c = 62 then some (ascii "&gt;")
  else if c = 34 then some (ascii "&quot;")
  else if c = 39 then some (ascii "&apos;")
  else if c = 38 then some (ascii "&amp;")
  else none

def xmlEscape : Bytes → Bytes
  | [] => []
  | c :: rest =>
      (match xmlSpecial c with
       | some r => r
       | none => [c]) ++ xmlEscape rest

/-- The per-byte replacement table exactly as the spec words it:
`<`, `>`, `"`, `'`, `&` map to their entities, every other byte passes
through unchanged. -/
def specEscapeByte (c : Nat) : Bytes :=
  if c = 60 then ascii "&lt;"
  else if c = 62 then ascii "&gt;"
  else if c = 34 then ascii "&quot;"
  else if c = 39 then ascii "&apos;"
  else if c = 38 then ascii "&amp;"
  else [c]

/-! ## Stanza data model (xmpp.go lines 366-512)

The decoded-stanza structures the claims touch, with the Go field
names (`Type` and `From` are Lean keywords, hence `Type'` and `From`
capitalized as in Go).  XMLName fields are decoding artifacts and are
dropped. -/

def nsStream : String := "http://etherx.jabber.org/streams"
def nsTLS : String := "urn:ietf:params:xml:ns:xmpp-tls"
def nsSASL : String := "urn:ietf:params:xml:ns:xmpp-sasl"
def nsBind : String := "urn:ietf:params:xml:ns:xmpp-bind"
def nsClient : String := "jabber:client"
def nsNotify : String := "google:mail:notify"

structure xmlName where
  Space : String
  Local : String
deriving DecidableEq

structure bindBind where
  Resource : String
  Jid : String
deriving DecidableEq

structure clientError where
  Code : String
  Type' : String
  Text : String
deriving DecidableEq

structure identity where
  Category : String
  Type' : String
  Name : String
deriving DecidableEq

structure feature where
  Var : String
deriving DecidableEq

structure query where
  Identity : identity
  Features : List feature
deriving DecidableEq

structure newMail where
deriving DecidableEq

structure clientIQ where
  From : String
  Id : String
  To : String
  Type' : String
  Error : clientError
  Bind : bindBind
  Query : query
  NewMail : Option newMail
deriving DecidableEq

/-- A value decoded by `next`: the receive loop's type switch only
distinguishes `*clientIQ` from everything else, so all other decode
targets are collapsed into one constructor. -/
inductive decoded where
  | iq (ciq : clientIQ)
  | nonIQ
deriving DecidableEq

/-! ## Receive loop, stanza branch (xmpp.go lines 101-108)

On a successfully decoded stanza the loop replies and fires the mail
callback exactly when `name.Space == nsClient && name.Local == "iq"`,
the value is a `*clientIQ`, and `ciq.To == self.jid && ciq.Type ==
"set" && ciq.NewMail != nil`.  The reply records the interpolation
slots of `fmt.Fprintf(self.conn, "<iq type='result' from='%v' to='%v'
id='%v' />\n", self.user, self.jid, ciq.Id)`. -/

structure mailReply where
  Type' : String
  From : String
  To : String
  Id : String
deriving DecidableEq

/-- One loop iteration on a successfully decoded stanza: the list of
reply IQs written to the connection and the number of mail-callback
invocations (the `Client` built by `New` always carries a handler). -/
def handleMailStanza (user jid : String) (name : xmlName) (v : decoded) :
    List mailReply × Nat :=
  if name.Space = nsClient ∧ name.Local = "iq" then
    match v with
    | .iq ciq =>
        if ciq.To = jid ∧ ciq.Type' = "set" ∧ ciq.NewMail.isSome then
          ([⟨"result", user, jid, ciq.Id⟩], 1)
        else ([], 0)
    | .nonIQ => ([], 0)
  else ([], 0)

/-! ## Receive loop, error branch (xmpp.go lines 88-99)

`strings.Contains` is embedded as a substring check on character
lists. -/

def charsStartWith : List Char → List Char → Bool
  | [], _ => true
  | _ :: _, [] => false
  | a :: as, b :: bs => a == b && charsStartWith as bs

def charsHaveSub (sub : List Char) : List Char → Bool
  | [] => sub.isEmpty
  | c :: cs => charsStartWith sub (c :: cs) || charsHaveSub sub cs

/-- Go's `strings.Contains(s, sub)`. -/
def strHasSub (s sub : String) : Bool := charsHaveSub sub.toList s.toList

/-- The classification `strings.Contains(err.Error(), "closed") ||
strings.Contains(err.Error(), "reset")`. -/
def errIsReset (err : String) : Bool :=
  strHasSub err "closed" || strHasSub err "reset"

structure loopErrorOutcome where
  closedConn : Bool
  startCalls : Nat
  errorCallbacks : List String
  returned : Bool
deriving DecidableEq

/-- The decode-error branch of one receive-loop iteration.  `err` is
the decode error's text; `startResult` is the outcome of the single
`self.Start()` call on the reconnect path (`none` = the re-handshake
succeeded, `some e` = it failed with error text `e`; unused on the
other path). -/
def handleMailOnError (err : String) (startResult : Option String) :
    loopErrorOutcome :=
  if errIsReset err then
    { closedConn := true
      startCalls := 1
      errorCallbacks :=
        match startResult with
        | some e => ["While trying to restart after " ++ err ++ ": " ++ e]
        | none => []
      returned := true }
  else
    { closedConn := false
      startCalls := 0
      errorCallbacks := [err]
      returned := true }

/-! ## SASL mechanism selection (xmpp.go lines 167-227)

The `for _, m := range f.Mechanisms.Mechanism` loop breaks at the first
element equal to `"PLAIN"` or to `"DIGEST-MD5"`; if the loop finishes
with `mechanism == ""` the handshake fails with the error built at
line 226. -/

def selectMechanism : List String → Option String
  | [] => none
  | m :: rest =>
      if m = "PLAIN" then some "PLAIN"
      else if m = "DIGEST-MD5" then some "DIGEST-MD5"
      else selectMechanism rest

/-- Go's `%v` of a `[]string`: the elements space-separated inside
brackets. -/
def goFmtStrings (ms : List String) : String :=
  "[" ++ String.intercalate " " ms ++ "]"

/-- The authentication stage's outcome: the chosen mechanism, or the
error of `errors.New(fmt.Sprintf("PLAIN authentication is not an
option: %v", f.Mechanisms.Mechanism))`. -/
def initAuthResult (ms : List String) : Except String String :=
  match selectMechanism ms with
  | some m => .ok m
  | none => .error ("PLAIN authentication is not an option: " ++ goFmtStrings ms)

/-! ## ResourceBind step (xmpp.go lines 262-270)

`iq.Bind` is a value field of type `bindBind`; when the decoded reply
has no bind child it holds the Go zero value.  The guard at line 267 is
`&iq.Bind == nil`, the address of a value field, which is never nil in
Go — the model records that condition as the constant `false`. -/

def bindBindZero : bindBind := ⟨"", ""⟩

/-- The decode of the bind child of the reply IQ: `some b` when the
reply carries a bind child decoding to `b`, `none` when it carries
none; Go stores the zero value in the latter case. -/
def decodedBind : Option bindBind → bindBind
  | some b => b
  | none => bindBindZero

/-- The Go condition `&iq.Bind == nil`: the address of a struct value
field, always non-nil, so the comparison is always false. -/
def bindNilCheck (_ : bindBind) : Bool := false

/-- The ResourceBind step after the reply IQ decoded: either the fatal
error of line 268 or the JID assigned to the client at line 270. -/
def resourceBindStep (child : Option bindBind) : Except String String :=
  let bind := decodedBind child
  if bindNilCheck bind then .error "<iq> result missing <bind>"
  else .ok bind.Jid

/-! ## Stanza codec `next` (xmpp.go lines 533-585)

The switch on `se.Name.Space + " " + se.Name.Local` allocates a decode
target; an unmatched pair returns the error of line 576 before any
decoding happens. -/

inductive protoKind where
  | streamFeaturesK
  | streamErrorK
  | tlsStartTLSK
  | tlsProceedK
  | tlsFailureK
  | saslMechanismsK
  | saslChallengeK
  | saslResponseK
  | saslAbortK
  | saslSuccessK
  | saslFailureK
  | bindBindK
  | clientMessageK
  | clientPresenceK
  | clientIQK
  | clientErrorK
deriving DecidableEq

/-- The allocation switch of `next`, keyed on
`se.Name.Space + " " + se.Name.Local` exactly as in the source. -/
def allocTarget (space localName : String) : Option protoKind :=
  let key := space ++ " " ++ localName
  if key = nsStream ++ " features" then some .streamFeaturesK
  else if key = nsStream ++ " error" then some .streamErrorK
  else if key = nsTLS ++ " starttls" then some .tlsStartTLSK
  else if key = nsTLS ++ " proceed" then some .tlsProceedK
  else if key = nsTLS ++ " failure" then some .tlsFailureK
  else if key = nsSASL ++ " mechanisms" then some .saslMechanismsK
  else if key = nsSASL ++ " challenge" then some .saslChallengeK
  else if key = nsSASL ++ " response" then some .saslResponseK
  else if key = nsSASL ++ " abort" then some .saslAbortK
  else if key = nsSASL ++ " success" then some .saslSuccessK
  else if key = nsSASL ++ " failure" then some .saslFailureK
  else if key = nsBind ++ " bind" then some .bindBindK
  else if key = nsClient ++ " message" then some .clientMessageK
  else if key = nsClient ++ " presence" then some .clientPresenceK
  else if key = nsClient ++ " iq" then some .clientIQK
  else if key = nsClient ++ " error" then some .clientErrorK
  else none

/-- The codec's `next` up to the decode of a recognized element: on an
unregistered (namespace, local-name) pair it returns the error of line
576 and no decoded value. -/
def nextAlloc (space localName : String) : Except String protoKind :=
  match allocTarget space localName with
  | some k => .ok k
  | none =>
      .error ("unexpected XMPP message " ++ space ++ " <" ++ localName ++ "/>")

/-! ## Subscribe step (xmpp.go lines 313-324) -/

/-- The interpolation slots of the subscribe request
`fmt.Fprintf(self.conn, "<iq type='get' from='%v'\tto='%v'
id='mail-request-1'><query xmlns='google:mail:notify'/></iq>",
self.jid, self.user)`. -/
def subscribeIQ (jid user : String) : mailReply :=
  ⟨"get", jid, user, "mail-request-1"⟩

/-- The rejection condition of the subscribe reply, Go line 322:
`ciq.From != self.user || ciq.Id != "mail-request-1" || ciq.To !=
self.jid || ciq.Type != "result"`; `true` takes the fatal-error
branch, `false` completes the handshake. -/
def subscribeRejects (user jid : String) (ciq : clientIQ) : Bool :=
  (ciq.From != user) || (ciq.Id != "mail-request-1") ||
    (ciq.To != jid) || (ciq.Type' != "result")

/-! ## DIGEST-MD5 challenge parsing (xmpp.go lines 192-201)

The decoded challenge is split on commas; each token is trimmed and
split at the first `=`; a two-part split indexes `kv[1][0]` and
`kv[1][len(kv[1])-1]` and may slice `kv[1][1:len(kv[1])-1]`.  Indexing
an empty string and the slice `[1:0]` are Go runtime panics, modelled
as explicit outcomes. -/

inductive goPanic where
  | indexOutOfRange
  | sliceBounds
deriving DecidableEq

/-- Go's `unicode.IsSpace`, the predicate behind `strings.TrimSpace`:
in Latin-1 the characters `\t \n \v \f \r` (code points 9-13), space,
U+0085 and U+00A0; beyond Latin-1 the White_Space runes U+1680,
U+2000-U+200A, U+2028, U+2029, U+202F, U+205F and U+3000. -/
def isSpaceChar (c : Char) : Bool :=
  (9 ≤ c.toNat && c.toNat ≤ 13) || c.toNat == 32 || c.toNat == 0x85 ||
    c.toNat == 0xA0 || c.toNat == 0x1680 ||
    (0x2000 ≤ c.toNat && c.toNat ≤ 0x200A) || c.toNat == 0x2028 ||
    c.toNat == 0x2029 || c.toNat == 0x202F || c.toNat == 0x205F ||
    c.toNat == 0x3000

/-- `strings.TrimSpace`: drop `unicode.IsSpace` runes from both ends. -/
def trimChars (l : List Char) : List Char :=
  ((l.dropWhile isSpaceChar).reverse.dropWhile isSpaceChar).reverse

/-- `strings.SplitN(s, "=", 2)`. -/
def splitN2eq (l : List Char) : List (List Char) :=
  match l.findIdx? (· == '=') with
  | none => [l]
  | some i => [l.take i, l.drop (i + 1)]

/-- The quote-stripping block applied to `kv[1]`: `kv[1][0]` panics on
the empty string; when the first and last byte are both `"` the slice
`kv[1][1:len(kv[1])-1]` panics for the one-byte value `"` (bounds
`[1:0]`); otherwise the value (possibly unquoted) is kept. -/
def stripValue : List Char → Except goPanic (List Char)
  | [] => .error .indexOutOfRange
  | c :: rest =>
      if c == '"' && (c :: rest).getLast (by simp) == '"' then
        if rest.isEmpty then .error .sliceBounds
        else .ok ((c :: rest).drop 1).dropLast
      else .ok (c :: rest)

/-- The token loop, building the association list of `tokens[kv[0]] =
kv[1]` assignments in order; the first panic aborts everything, as a Go
panic would. -/
def parseTokens : List (List Char) → Except goPanic (List (List Char × List Char))
  | [] => .ok []
  | t :: rest =>
      match splitN2eq (trimChars t) with
      | [k, v] =>
          match stripValue v with
          | .error p => .error p
          | .ok v2 =>
              match parseTokens rest with
              | .error p => .error p
              | .ok m => .ok ((k, v2) :: m)
      | _ => parseTokens rest

/-- `strings.Split(s, ",")` on character lists. -/
def splitOnComma : List Char → List (List Char)
  | [] => [[]]
  | c :: rest =>
      if c == ',' then [] :: splitOnComma rest
      else match splitOnComma rest with
        | [] => [[c]]
        | g :: gs => (c :: g) :: gs

/-- The whole challenge-parsing block of the DIGEST-MD5 path. -/
def parseChallenge (chal : List Char) :
    Except goPanic (List (List Char × List Char)) :=
  parseTokens (splitOnComma chal)

/-- A comma-separated token is harmless when it is not of the form
`key=value`, or its value is non-empty and not the lone character `"`. -/
def goodToken (t : List Char) : Bool :=
  match splitN2eq (trimChars t) with
  | [_, v] => !v.isEmpty && v != ['"']
  | _ => true

/-! ## Concrete instances used by counterexamples and witnesses -/

/-- A decoded mail-notification IQ whose sender (`From`) differs from
the bound JID. -/
def mailIQex : clientIQ :=
  { From := "user@domain", Id := "42", To := "user@domain/res1", Type' := "set",
    Error := ⟨"", "", ""⟩, Bind := ⟨"", ""⟩, Query := ⟨⟨"", "", ""⟩, []⟩,
    NewMail := some ⟨⟩ }

/-- `isOk` on the challenge parser's outcome. -/
def parseOk : Except goPanic (List (List Char × List Char)) → Bool
  | .ok _ => true
  | .error _ => false

/-! ## Sanity: the embedded MD5 against a published known answer -/

set_option maxRecDepth 10000 in
theorem md5_known_answer :
    hexLower (md5 (ascii "abc")) = ascii "900150983cd24fb0d6963f7d28e17f72" := by
  decide

/-! ## C4 -/

/-- C4: for every username, realm, password, server nonce, client nonce
and the fixed nonce-count "00000001", the digest computed by
`saslDigestResponse` (called with authenticate = "AUTHENTICATE" and
digest-uri = "xmpp/" + domain as in `init`) is deterministic and equals
the RFC 2831 reference computation of the spec, all hex lowercase. -/
theorem saslDigestResponse_matches_rfc2831
    (username realm password nonce cn domain : Bytes) :
    saslDigestResponse username realm password nonce cn
      (ascii "AUTHENTICATE") (ascii "xmpp/" ++ domain) (ascii "00000001")
    = rfc2831Response username realm password nonce cn domain := by
  have hA : ascii "AUTHENTICATE:" = ascii "AUTHENTICATE" ++ colonB := by decide
  simp only [saslDigestResponse, rfc2831Response, hA, List.append_assoc]

/-! ## C8 -/

/-- C8: `xmlEscape` rewrites its input byte by byte with the spec's
five-entry replacement table, every other byte passing through
unchanged; in particular it is the identity on strings free of the
five special bytes. -/
theorem xmlEscape_bytewise (s : Bytes) :
    xmlEscape s = s.flatMap specEscapeByte ∧
      ((∀ c ∈ s, xmlSpecial c = none) → xmlEscape s = s) := by
  have hbyte : ∀ c : Nat,
      (match xmlSpecial c with
       | some r => r
       | none => [c]) = specEscapeByte c := by
    intro c
    unfold xmlSpecial specEscapeByte
    split_ifs <;> rfl
  constructor
  · induction s with
    | nil => rfl
    | cons c rest ih =>
        simp only [xmlEscape, List.flatMap_cons, ih, hbyte]
  · intro h
    induction s with
    | nil => rfl
    | cons c rest ih =>
        have hc := h c (List.mem_cons_self c rest)
        simp only [xmlEscape, hc]
        simp only [List.singleton_append, List.cons.injEq, true_and]
        exact ih fun x hx => h x (List.mem_cons_of_mem _ hx)

theorem xmlEscape_bytewise_witness :
    xmlEscape [104, 195, 169, 33] = [104, 195, 169, 33] :=
  (xmlEscape_bytewise [104, 195, 169, 33]).2 (by decide)

/-! ## C6 -/

/-- C6: an incoming element whose (namespace, local-name) pair has no
registered decode target makes the codec's `next` return the error of
line 576 — a message naming the namespace and the local name — and no
decoded value. -/
theorem next_unregistered_is_error (space localName : String)
    (h : allocTarget space localName = none) :
    nextAlloc space localName =
      .error ("unexpected XMPP message " ++ space ++ " <" ++ localName ++ "/>") := by
  simp [nextAlloc, h]

theorem next_unregistered_is_error_witness :
    nextAlloc "urn:unknown" "foo" =
      .error ("unexpected XMPP message " ++ "urn:unknown" ++ " <" ++ "foo" ++ "/>") :=
  next_unregistered_is_error "urn:unknown" "foo" (by decide)

/-! ## C5 -/

/-- C5 (behavior at the failing input): the `&iq.Bind == nil` guard of
the ResourceBind step is always false, so a reply IQ with no bind child
is not rejected — the step succeeds with the empty JID of the zero
value — while a reply with a bind child sets the JID to that child's
jid. -/
theorem resourceBind_never_rejects :
    resourceBindStep none = .ok "" ∧
      ∀ b, resourceBindStep (some b) = .ok b.Jid :=
  ⟨rfl, fun _ => rfl⟩

/-! ## C7 -/

/-- C7: the Subscribe step emits its query IQ with the fixed
correlation id "mail-request-1", and accepts the reply exactly when the
reply's `from` is the account identifier, its `to` the bound JID, its
`id` "mail-request-1" and its `type` "result"; any mismatch takes the
fatal-error branch. -/
theorem subscribe_requires_exact_reply (user jid : String) (ciq : clientIQ) :
    (subscribeIQ jid user).Id = "mail-request-1" ∧
      (subscribeRejects user jid ciq = false ↔
        (ciq.From = user ∧ ciq.Id = "mail-request-1" ∧
          ciq.To = jid ∧ ciq.Type' = "result")) := by
  refine ⟨rfl, ?_⟩
  simp [subscribeRejects, Bool.or_eq_false_iff, bne_eq_false_iff_eq, and_assoc]

/-! ## C2 -/

/-- C2 (counterexample): the offered list ["DIGEST-MD5", "PLAIN"]
contains "PLAIN", yet the selection loop picks DIGEST-MD5, because it
breaks at the first offered mechanism it supports. -/
theorem selectMechanism_not_plain_preferring :
    "PLAIN" ∈ ["DIGEST-MD5", "PLAIN"] ∧
      selectMechanism ["DIGEST-MD5", "PLAIN"] = some "DIGEST-MD5" := by
  exact ⟨by decide, by decide⟩

/-- C2 (amended): the loop selects the first element of the offered
list equal to "PLAIN" or "DIGEST-MD5" (so DIGEST-MD5 is chosen whenever
it is offered and PLAIN is not), and when neither is offered the
handshake fails with the authentication-unavailable error naming the
offered list. -/
theorem selectMechanism_first_supported (ms : List String) :
    selectMechanism ms = ms.find? (fun m => m == "PLAIN" || m == "DIGEST-MD5") ∧
      ("DIGEST-MD5" ∈ ms → "PLAIN" ∉ ms →
        selectMechanism ms = some "DIGEST-MD5") ∧
      ("PLAIN" ∉ ms → "DIGEST-MD5" ∉ ms →
        initAuthResult ms =
          .error ("PLAIN authentication is not an option: " ++ goFmtStrings ms)) := by
  refine ⟨?_, ?_, ?_⟩
  · induction ms with
    | nil => rfl
    | cons m rest ih =>
        by_cases h1 : m = "PLAIN"
        · subst h1; simp [selectMechanism, List.find?]
        · by_cases h2 : m = "DIGEST-MD5"
          · subst h2; simp [selectMechanism, List.find?]
          · have b1 : (m == "PLAIN") = false := beq_eq_false_iff_ne.mpr h1
            have b2 : (m == "DIGEST-MD5") = false := beq_eq_false_iff_ne.mpr h2
            simp [selectMechanism, List.find?, h1, h2, b1, b2, ih]
  · intro hD hP
    induction ms with
    | nil => cases hD
    | cons m rest ih =>
        rcases List.mem_cons.mp hD with h | h
        · subst h
          have : ("DIGEST-MD5" : String) ≠ "PLAIN" := by decide
          simp [selectMechanism, this]
        · have hm : m ≠ "PLAIN" := fun hc => hP (hc ▸ List.mem_cons_self m rest)
          by_cases h2 : m = "DIGEST-MD5"
          · subst h2; simp [selectMechanism, hm]
          · simp only [selectMechanism, if_neg hm, if_neg h2]
            exact ih h fun hc => hP (List.mem_cons_of_mem _ hc)
  · intro hP hD
    have hnone : selectMechanism ms = none := by
      induction ms with
      | nil => rfl
      | cons m rest ih =>
          have hm : m ≠ "PLAIN" := fun hc => hP (hc ▸ List.mem_cons_self m rest)
          have hm2 : m ≠ "DIGEST-MD5" := fun hc => hD (hc ▸ List.mem_cons_self m rest)
          simp only [selectMechanism, if_neg hm, if_neg hm2]
          exact ih (fun hc => hP (List.mem_cons_of_mem _ hc))
            (fun hc => hD (List.mem_cons_of_mem _ hc))
    simp [initAuthResult, hnone]

theorem selectMechanism_first_supported_witness :
    selectMechanism ["DIGEST-MD5"] = some "DIGEST-MD5" :=
  (selectMechanism_first_supported ["DIGEST-MD5"]).2.1 (by decide) (by decide)

/-! ## C1 -/

/-- C1 (counterexample): for the bound JID "user@domain/res1" and the
mail-notification IQ `mailIQex` sent by "user@domain", the loop writes
exactly one reply, but the reply's `to` is the bound JID, not the
incoming stanza's sender. -/
theorem handleMail_reply_to_is_not_sender :
    (handleMailStanza "user@domain" "user@domain/res1" ⟨nsClient, "iq"⟩
        (.iq mailIQex)).1 =
      [⟨"result", "user@domain", "user@domain/res1", "42"⟩] ∧
      ∀ r ∈ (handleMailStanza "user@domain" "user@domain/res1" ⟨nsClient, "iq"⟩
        (.iq mailIQex)).1, r.To ≠ mailIQex.From := by
  decide

/-- C1 (amended): for every decoded stanza that is a jabber:client IQ
addressed to the bound JID, of type set, with a new-mail marker, the
loop writes exactly one reply `<iq type='result' from=account
to=boundJid id=sameId/>` (the reply's `to` is the bound JID, which is
the incoming stanza's `to`, not its sender) and fires the mail callback
exactly once; every other decoded stanza produces no write and no
callback. -/
theorem handleMail_dispatch (user jid : String) (name : xmlName) (v : decoded) :
    (∀ ciq, v = decoded.iq ciq → name = ⟨nsClient, "iq"⟩ →
        ciq.To = jid → ciq.Type' = "set" → ciq.NewMail.isSome = true →
        handleMailStanza user jid name v = ([⟨"result", user, jid, ciq.Id⟩], 1)) ∧
      ((∀ ciq, v = decoded.iq ciq →
          ¬(name = ⟨nsClient, "iq"⟩ ∧ ciq.To = jid ∧ ciq.Type' = "set" ∧
            ciq.NewMail.isSome = true)) →
        handleMailStanza user jid name v = ([], 0)) := by
  obtain ⟨sp, lo⟩ := name
  constructor
  · rintro ciq rfl ⟨rfl, rfl⟩ hTo hTy hNM
    simp [handleMailStanza, hTo, hTy, hNM]
  · intro h
    cases v with
    | nonIQ =>
        simp only [handleMailStanza]
        split <;> rfl
    | iq ciq =>
        have hc := h ciq rfl
        simp only [handleMailStanza]
        split
        · rename_i hcond
          obtain ⟨h1, h2⟩ := hcond
          subst h1; subst h2
          split
          · rename_i hcond2
            exact absurd ⟨rfl, hcond2.1, hcond2.2.1, hcond2.2.2⟩ hc
          · rfl
        · rfl

theorem handleMail_dispatch_witness :
    handleMailStanza "user@domain" "user@domain/res1" ⟨nsClient, "iq"⟩
        (decoded.iq mailIQex) =
      ([⟨"result", "user@domain", "user@domain/res1", "42"⟩], 1) :=
  (handleMail_dispatch "user@domain" "user@domain/res1" ⟨nsClient, "iq"⟩
      (decoded.iq mailIQex)).1 mailIQex rfl rfl rfl rfl rfl

/-! ## C3 -/

/-- C3: when decode fails with a closed/reset-classified error the loop
closes the transport, re-runs the handshake exactly once, and calls the
error callback only if that single reconnection fails — with the
wrapped message naming both errors; for every other decode error it
calls the error callback with the raw error and terminates without
reconnecting. -/
theorem receiveLoop_error_policy (err e : String) :
    (errIsReset err = true →
      handleMailOnError err none = ⟨true, 1, [], true⟩ ∧
        handleMailOnError err (some e) =
          ⟨true, 1, ["While trying to restart after " ++ err ++ ": " ++ e],
            true⟩) ∧
      (errIsReset err = false → ∀ sr,
        handleMailOnError err sr = ⟨false, 0, [err], true⟩) := by
  constructor
  · intro h
    constructor <;> simp [handleMailOnError, h]
  · intro h sr
    simp [handleMailOnError, h]

theorem receiveLoop_error_policy_witness :
    handleMailOnError "connection reset by peer" (some "dial failed") =
      ⟨true, 1,
        ["While trying to restart after " ++ "connection reset by peer" ++
          ": " ++ "dial failed"], true⟩ :=
  ((receiveLoop_error_policy "connection reset by peer" "dial failed").1
      (by decide)).2

/-! ## C9 -/

theorem natHexRevAux_all_hex (fuel : Nat) :
    ∀ n, ∀ b ∈ natHexRevAux fuel n, isLowerHexDigit b = true := by
  induction fuel with
  | zero => intro n b hb; simp [natHexRevAux] at hb
  | succ f ih =>
      intro n b hb
      cases n with
      | zero => simp [natHexRevAux] at hb
      | succ m =>
          simp only [natHexRevAux] at hb
          rcases List.mem_cons.mp hb with h | h
          · subst h
            have hlt : (m + 1) % 16 < 16 := Nat.mod_lt _ (by omega)
            unfold hexDigitByte isLowerHexDigit
            split_ifs with hd
            · simp; omega
            · simp; omega
          · exact ih _ b h

theorem natHexRevAux_length_le (fuel : Nat) :
    ∀ n k, n < 16 ^ k → (natHexRevAux fuel n).length ≤ k := by
  induction fuel with
  | zero => intro n k _; simp [natHexRevAux]
  | succ f ih =>
      intro n k hn
      cases n with
      | zero => simp [natHexRevAux]
      | succ m =>
          cases k with
          | zero => simp at hn
          | succ k' =>
              simp only [natHexRevAux, List.length_cons]
              have hq : (m + 1) / 16 < 16 ^ k' := by
                rw [Nat.div_lt_iff_lt_mul (by omega : 0 < 16)]
                calc m + 1 < 16 ^ (k' + 1) := hn
                _ = 16 ^ k' * 16 := by rw [Nat.pow_succ]
              exact Nat.succ_le_succ (ih _ _ hq)

/-- C9 (counterexample): on the randomness-source error branch `cnonce`
returns the empty string, which is not 16 hex digits. -/
theorem cnonce_error_branch_not_hex :
    cnonce none = [] ∧ (cnonce none).length ≠ 16 := by decide

/-- C9 (amended): on every invocation where the randomness source
yields a value — necessarily below 2^64 — `cnonce` returns exactly 16
lowercase hexadecimal digits (the zero-padded hex rendering of that
64-bit value); only the error branch of the random draw returns the
empty string instead. -/
theorem cnonce_sixteen_hex (n : Nat) (h : n < 18446744073709551616) :
    (cnonce (some n)).length = 16 ∧
      ∀ b ∈ cnonce (some n), isLowerHexDigit b = true := by
  have h16 : n < 16 ^ 16 := by
    have : (16 : Nat) ^ 16 = 18446744073709551616 := by norm_num
    omega
  have hlen : (goHexNat n).length ≤ 16 := by
    unfold goHexNat
    split_ifs with h0
    · simp
    · rw [List.length_reverse]
      exact natHexRevAux_length_le n n 16 h16
  have hmem : ∀ b ∈ goHexNat n, isLowerHexDigit b = true := by
    intro b hb
    unfold goHexNat at hb
    split_ifs at hb with h0
    · simp at hb; subst hb; decide
    · rw [List.mem_reverse] at hb
      exact natHexRevAux_all_hex n n b hb
  constructor
  · simp only [cnonce, sprintf016x, List.length_append, List.length_replicate]
    omega
  · intro b hb
    simp only [cnonce, sprintf016x, List.mem_append] at hb
    rcases hb with hb | hb
    · rcases (List.mem_replicate.mp hb) with ⟨-, rfl⟩; decide
    · exact hmem b hb

theorem cnonce_sixteen_hex_witness :
    (cnonce (some 255)).length = 16 :=
  (cnonce_sixteen_hex 255 (by norm_num)).1

/-! ## C10 -/

theorem stripValue_isOk (v : List Char) (h1 : v ≠ []) (h2 : v ≠ ['"']) :
    ∃ w, stripValue v = .ok w := by
  cases v with
  | nil => exact absurd rfl h1
  | cons c rest =>
      simp only [stripValue]
      by_cases hq : (c == '"' && (c :: rest).getLast (by simp) == '"') = true
      · rw [if_pos hq]
        cases rest with
        | nil =>
            exfalso
            apply h2
            have : c = '"' := by
              have := (Bool.and_eq_true _ _).mp hq
              exact eq_of_beq this.1
            simp [this]
        | cons d tl => exact ⟨((c :: d :: tl).drop 1).dropLast, rfl⟩
      · rw [if_neg hq]
        exact ⟨_, rfl⟩

/-- C10: challenge parsing is total exactly on challenges whose
trimmed `key=value` tokens all have a non-empty value that is not a
lone double-quote: an empty value (as in "qop=", or "qop=\x0b" whose
value `TrimSpace` erases) evaluates `kv[1][0]` on the empty string — an
out-of-bounds index — and the one-character value `"` evaluates the
slice `kv[1][1:0]` — invalid slice bounds — instead of storing an empty
value for the key. -/
theorem parseChallenge_panics :
    (∀ ts, (∀ t ∈ ts, goodToken t = true) → parseOk (parseTokens ts) = true) ∧
      parseChallenge ("realm=x,qop=".toList) = .error .indexOutOfRange ∧
      parseChallenge ("qop=\x0b".toList) = .error .indexOutOfRange ∧
      parseChallenge ("qop=\"".toList) = .error .sliceBounds := by
  refine ⟨?_, by rfl, by rfl, by rfl⟩
  intro ts h
  induction ts with
  | nil => rfl
  | cons t rest ih =>
      have ht := h t (List.mem_cons_self t rest)
      have hrest := ih fun x hx => h x (List.mem_cons_of_mem _ hx)
      simp only [parseTokens]
      rcases hsp : splitN2eq (trimChars t) with - | ⟨k, tl⟩
      · exact hrest
      · rcases tl with - | ⟨v, tl2⟩
        · exact hrest
        · rcases tl2 with - | ⟨w, tl3⟩
          · simp only [goodToken, hsp, Bool.and_eq_true, Bool.not_eq_true',
              bne_iff_ne, ne_eq] at ht
            obtain ⟨hv1, hv2⟩ := ht
            have hv1' : v ≠ [] := by
              intro hc; subst hc; simp at hv1
            obtain ⟨w2, hw2⟩ := stripValue_isOk v hv1' hv2
            cases hpr : parseTokens rest with
            | error p => rw [hpr] at hrest; simp [parseOk] at hrest
            | ok m => simp only [hw2, hpr]; rfl
          · exact hrest

theorem parseChallenge_panics_witness :
    parseOk (parseTokens [("realm=x".toList), ("nonce=abc".toList)]) = true :=
  parseChallenge_panics.1 _ (by decide)
